import Mathlib

/-!
Verification development for the kiro-studio MIDI core (`kiro-midi` crate).

The Rust sources embedded here:
  * `src/kiro-midi/src/protocol/decoder.rs` — the UMP decoder state machine
    (`DecoderProtocol` trait with its default `next`/`init`/`push`/
    `is_complete`/`reset` methods, and the `DecoderProtocol1` /
    `DecoderProtocol2` implementations).
  * `src/kiro-midi/src/endpoints.rs` — the `Endpoints` registry.
  * `src/kiro-midi/src/drivers/jackmidi/driver.rs` — the jack driver:
    `Input`, `JackHost::process`, `create_input`, `set_input_sources`.

Machine integers are modelled as `Nat` with explicit masking (`% 16`,
`% 2^32`) exactly where the Rust code masks; `u32` words are arbitrary
naturals fed through the same shifts and masks the code applies.
Rust `HashMap`s are modelled as association lists with the same key
semantics (`entry`-vacancy check, insert-replaces, remove-by-key);
`HashMap` iteration order is unspecified in Rust, the list order stands
in for it.
-/

namespace KiroMidi

/-- Modelled from the spec: `Filter` (file `filter.rs` is not part of the
given sources).  §4.2: a value answering three independent predicates —
accept-by-message-type, accept-by-group, accept-by-channel(group, channel).
`Filter::new()` accepts everything (the decoder tests construct it as the
pass-all filter). -/
structure Filter where
  mtype : Nat → Bool
  group : Nat → Bool
  channel : Nat → Nat → Bool

/-- `Filter::new()` — accepts every message type, group and channel. -/
def Filter.new : Filter :=
  { mtype := fun _ => true, group := fun _ => true, channel := fun _ _ => true }

/-- Modelled from the spec: `Utility` messages (file
`protocol/messages/utility.rs` is not part of the given sources).  §4.1
only fixes that a Utility packet has a 1-word payload; the payload
decoding itself is not needed by any claim, so the raw word is kept. -/
inductive Utility where
  | fromWord (w : Nat)
deriving DecidableEq, Repr

/-- Modelled from the spec: the MIDI-2 channel-voice message body
(`protocol/messages/channel_voice.rs` is not part of the given sources).
Field layout reconstructed bit-exactly (§6) from the test vectors in
`decoder.rs`: word0 = mtype(4) group(4) opcode(4) channel(4) note(8)
attr_type(8), word1 = velocity(16) attr_data(16); opcode 9 = NoteOn,
opcode 8 = NoteOff.  Opcodes the claims never touch keep their raw
words. -/
inductive ChanelVoiceMessage where
  | NoteOn (note velocity attr_t attr_d : Nat)
  | NoteOff (note velocity attr_t attr_d : Nat)
  | Other (opcode w0 w1 : Nat)
deriving DecidableEq, Repr

/-- MIDI-2 channel voice: channel plus body (mirrors `ChannelVoice`). -/
structure ChannelVoice where
  channel : Nat
  message : ChanelVoiceMessage
deriving DecidableEq, Repr

/-- `ChannelVoice::decode(&ump[0..2])`, modelled from the spec as above. -/
def ChannelVoice.decode (w0 w1 : Nat) : ChannelVoice :=
  let opcode := (w0 >>> 20) % 16
  let channel := (w0 >>> 16) % 16
  let note := (w0 >>> 8) % 256
  let attr_t := w0 % 256
  let velocity := (w1 >>> 16) % 65536
  let attr_d := w1 % 65536
  { channel := channel
    message :=
      if opcode = 9 then .NoteOn note velocity attr_t attr_d
      else if opcode = 8 then .NoteOff note velocity attr_t attr_d
      else .Other opcode w0 w1 }

/-- Modelled from the spec: the MIDI-1 channel-voice message body
(`channel_voice.rs` is not part of the given sources).  §4.1: a 1-word
payload carrying the tunnelled MIDI-1 bytes; word0 = mtype(4) group(4)
status(4) channel(4) data1(8) data2(8), status 9 = NoteOn, 8 = NoteOff. -/
inductive ChanelVoiceMessage1 where
  | NoteOn1 (key velocity : Nat)
  | NoteOff1 (key velocity : Nat)
  | Other1 (status w0 : Nat)
deriving DecidableEq, Repr

/-- MIDI-1 channel voice: channel plus body (mirrors `ChannelVoice1`). -/
structure ChannelVoice1 where
  channel : Nat
  message : ChanelVoiceMessage1
deriving DecidableEq, Repr

/-- `ChannelVoice1::decode(&ump[0..1])`, modelled from the spec as above. -/
def ChannelVoice1.decode (w0 : Nat) : ChannelVoice1 :=
  let status := (w0 >>> 20) % 16
  let channel := (w0 >>> 16) % 16
  let data1 := (w0 >>> 8) % 256
  let data2 := w0 % 256
  { channel := channel
    message :=
      if status = 9 then .NoteOn1 data1 data2
      else if status = 8 then .NoteOff1 data1 data2
      else .Other1 status w0 }

/-- `MessageType` from `protocol/messages/mod.rs`. -/
inductive MessageType where
  | Utility (u : Utility)
  | ChannelVoice (cv : ChannelVoice)
  | ChannelVoice1 (cv : ChannelVoice1)
deriving DecidableEq, Repr

/-- `Message` from `protocol/messages/mod.rs`: group plus tagged body. -/
structure Message where
  group : Nat
  mtype : MessageType
deriving DecidableEq, Repr

/-- `Error` from `protocol/decoder.rs` (`Reserved` is its only variant). -/
inductive DecError where
  | Reserved
deriving DecidableEq, Repr

/-- The mutable state shared by `DecoderProtocol1` and `DecoderProtocol2`:
`{ ump: [u32;4], index: usize, len: usize }`.  The array is a 4-element
list; `push` only ever writes at `index < 4` in reachable states. -/
structure DecoderState where
  ump : List Nat
  index : Nat
  len : Nat
deriving DecidableEq, Repr

/-- `DecoderProtocol1::default()` / `DecoderProtocol2::default()`. -/
def DecoderState.default : DecoderState :=
  { ump := [0, 0, 0, 0], index := 0, len := 0 }

/-- The word count selected by `DecoderProtocol::init` from the high
nibble of the first word: `match (data >> 28) & 0x0f { 0|1|2 => 1,
3|4 => 2, 5 => 4, _ => 1 }`. -/
def initLen (data : Nat) : Nat :=
  match (data >>> 28) % 16 with
  | 0 => 1
  | 1 => 1
  | 2 => 1
  | 3 => 2
  | 4 => 2
  | 5 => 4
  | _ => 1

/-- `DecoderProtocol::reset`: zero `index` and `len` (the `ump` words are
left in place, exactly as in the Rust code). -/
def DecoderState.reset (d : DecoderState) : DecoderState :=
  { d with index := 0, len := 0 }

/-- A decode dispatch function: the per-implementation
`DecoderProtocol::decode(&mut self, mtype, group, filter)`. -/
def DecodeFn : Type :=
  DecoderState → Nat → Nat → Filter → Option Message

/-- `DecoderProtocol2::decode`: Utility for mtype 0, MIDI-2 channel voice
(with the extra channel filter) for mtype 4, `None` otherwise. -/
def decode2 : DecodeFn := fun d mtype group filter =>
  match mtype with
  | 0 => some { group := group, mtype := .Utility (.fromWord (d.ump.getD 0 0)) }
  | 4 =>
    let cv := ChannelVoice.decode (d.ump.getD 0 0) (d.ump.getD 1 0)
    if filter.channel group cv.channel then
      some { group := group, mtype := .ChannelVoice cv }
    else
      none
  | _ => none

/-- `DecoderProtocol1::decode`: MIDI-1 channel voice (with the extra
channel filter) for mtype 2, `None` otherwise. -/
def decode1 : DecodeFn := fun d mtype group filter =>
  match mtype with
  | 2 =>
    let cv := ChannelVoice1.decode (d.ump.getD 0 0)
    if filter.channel group cv.channel then
      some { group := group, mtype := .ChannelVoice1 cv }
    else
      none
  | _ => none

/-- `DecoderProtocol::next(&mut self, data, filter)`: initialise `len` on
the first word of a packet, push the word, and on completion extract
`(mtype, group)` from word 0, apply the filter, dispatch `decode`, and
reset.  The Rust function returns `Result<Option<Message>, Error>` and
only ever builds the `Ok` arm. -/
def next (decode : DecodeFn) (d : DecoderState) (data : Nat) (filter : Filter) :
    DecoderState × Except DecError (Option Message) :=
  let d := if d.index = 0 then { d with len := initLen data } else d
  let d := { d with ump := d.ump.set d.index data, index := d.index + 1 }
  if d.index = d.len then
    let mtype := (d.ump.getD 0 0 >>> 28) % 16
    let group := (d.ump.getD 0 0 >>> 24) % 16
    let message :=
      if filter.mtype mtype && filter.group group then
        decode d mtype group filter
      else
        none
    (d.reset, Except.ok message)
  else
    (d, Except.ok none)

/-- Feed a list of words through `next` one by one, collecting every
per-word result in order. -/
def feedAll (decode : DecodeFn) (d : DecoderState) (ws : List Nat) (filter : Filter) :
    DecoderState × List (Except DecError (Option Message)) :=
  match ws with
  | [] => (d, [])
  | w :: rest =>
    let (d1, r) := next decode d w filter
    let (d2, rs) := feedAll decode d1 rest filter
    (d2, r :: rs)

/-- `Event` from the driver (`driver.rs:151-155`): timestamp, source id
(`endpoint`) and decoded message. -/
structure Event where
  timestamp : Nat
  endpoint : Nat
  message : Message
deriving DecidableEq, Repr

/-- The inner word loop of `JackHost::process` (`driver.rs:142-158`),
minus the initial `reset`: feed each `(time, word)` pair of one cycle to
the decoder (`DecoderProtocol1`); every `Ok(Some(message))` becomes an
`Event` for source `sid`. -/
def feedEvents (sid : Nat) (d : DecoderState) (ws : List (Nat × Nat)) (f : Filter) :
    DecoderState × List Event :=
  match ws with
  | [] => (d, [])
  | (t, w) :: rest =>
    let (d1, r) := next decode1 d w f
    let (d2, evs) := feedEvents sid d1 rest f
    match r with
    | .ok (some m) => (d2, { timestamp := t, endpoint := sid, message := m } :: evs)
    | _ => (d2, evs)

/-- One (input, source) iteration of `JackHost::process`
(`driver.rs:141-158`): the code calls `input.decoder.reset()` before the
word loop, then feeds the cycle's words. -/
def processSourceCycle (sid : Nat) (d : DecoderState) (ws : List (Nat × Nat)) (f : Filter) :
    DecoderState × List Event :=
  feedEvents sid d.reset ws f

/-- The byte packing at `driver.rs:143-149`: a 3-byte jack MIDI event is
framed as the big-endian word `[0b0010_0000, b0, b1, b2]`, a 2-byte event
as `[0b0010_0000, b0, b1, 0]`; every other length hits the `panic!()`
arm, modelled as `none`. -/
def packWord (bytes : List Nat) : Option Nat :=
  match bytes with
  | [b0, b1, b2] => some (0x20 * 2 ^ 24 + b0 % 256 * 2 ^ 16 + b1 % 256 * 2 ^ 8 + b2 % 256)
  | [b0, b1] => some (0x20 * 2 ^ 24 + b0 % 256 * 2 ^ 16 + b1 % 256 * 2 ^ 8)
  | _ => none

/-- Modelled from the spec: `SourceMatch` (`source_match.rs` is not part
of the given sources).  §4.2: a name pattern (literal or regex,
abstracted here as a predicate on the name) paired with a bound
`Filter`. -/
structure SourceMatch where
  pattern : String → Bool
  filter : Filter

/-- Modelled from the spec: `SourceMatches`, the ordered rule set of an
input (§4.2). -/
def SourceMatches : Type :=
  List SourceMatch

/-- Modelled from the spec: `SourceMatches::match_filter(id, name)`
returns the filter of the first rule whose pattern matches `name`; a
source matching no rule yields `None` (§4.2). -/
def matchFilter (sm : SourceMatches) (_id : Nat) (name : String) : Option Filter :=
  (sm.find? (fun r => r.pattern name)).map (fun r => r.filter)

/-- `InputConfig` (name plus `SourceMatches`). -/
structure InputConfig where
  name : String
  sources : SourceMatches

/-- The jack driver's `Input` struct (`driver.rs:29-37`): name, rule
set, connected source-id set, published filter map, the registered port
handle, and ONE `DecoderProtocol1` for the whole input.  The `handler`
delivery sink performs I/O and is elided; `process` below returns the
events that would be handed to it, in call order. -/
structure Input where
  name : String
  sources : SourceMatches
  connected : List Nat
  filters : List (Nat × Filter)
  port : Nat
  decoder : DecoderState

/-- Association-list lookup, standing in for `HashMap::get`. -/
def lookupKey {κ α : Type} [DecidableEq κ] (l : List (κ × α)) (k : κ) : Option α :=
  (l.find? (fun p => decide (p.1 = k))).map (fun p => p.2)

/-- Key removal, standing in for `HashMap::remove` (keys are unique in
every reachable map, so the filter removes at most one entry). -/
def eraseKey {κ α : Type} [DecidableEq κ] (l : List (κ × α)) (k : κ) : List (κ × α) :=
  l.filter (fun p => !decide (p.1 = k))

/-- `JackHost::process` restricted to one input (`driver.rs:135-160`):
for every id in `input.connected`, look up its filter (pass-all default),
call `input.decoder.reset()`, and replay the input port's cycle buffer
`portWords` through the input's single shared decoder.  The one decoder
is threaded through the source iterations exactly as the single
`input.decoder` field is in the Rust code. -/
def processInput (inp : Input) (portWords : List (Nat × Nat)) : Input × List Event :=
  inp.connected.foldl
    (fun acc sid =>
      let f := (lookupKey acc.1.filters sid).getD Filter.new
      let (d2, evs) := processSourceCycle sid acc.1.decoder portWords f
      ({ acc.1 with decoder := d2 }, acc.2 ++ evs))
    (inp, [])

/-- Modelled from the spec: the per-(input, source) real-time loop the
spec mandates (§2 control flow, §3 invariant "a decoder instance belongs
to exactly one (input, source) pair", §4.1 reset granularity, §5).  Each
connected source owns its private decoder, which persists across cycles
(no reset at cycle start), and is fed only that source's own words. -/
def processInputSpec (decs : List (Nat × DecoderState)) (connected : List Nat)
    (filters : List (Nat × Filter)) (sourceWords : List (Nat × List (Nat × Nat))) :
    List (Nat × DecoderState) × List Event :=
  connected.foldl
    (fun acc sid =>
      let f := (lookupKey filters sid).getD Filter.new
      let d := (lookupKey acc.1 sid).getD DecoderState.default
      let ws := (lookupKey sourceWords sid).getD []
      let (d2, evs) := feedEvents sid d ws f
      ((sid, d2) :: eraseKey acc.1 sid, acc.2 ++ evs))
    (decs, [])

/-- `ConnectedSource<T>` from `endpoints.rs`. -/
structure ConnectedSource (α : Type) where
  id : Nat
  name : String
  source : α
deriving DecidableEq, Repr

/-- `ConnectedDestination<T>` from `endpoints.rs`. -/
structure ConnectedDestination (α : Type) where
  id : Nat
  name : String
  destination : α
deriving DecidableEq, Repr

/-- `DisconnectedSource` from `endpoints.rs`. -/
structure DisconnectedSource where
  id : Nat
  name : String
deriving DecidableEq, Repr

/-- `DisconnectedDestination` from `endpoints.rs`. -/
structure DisconnectedDestination where
  id : Nat
  name : String
deriving DecidableEq, Repr

/-- `Endpoints<MidiIn, MidiOut>`: the four id-keyed maps, as association
lists (`SourceId`/`DestinationId` = `u64`, modelled as `Nat`; ids only
ever undergo equality tests). -/
structure Endpoints (MidiIn MidiOut : Type) where
  connected_sources : List (Nat × ConnectedSource MidiIn)
  connected_destinations : List (Nat × ConnectedDestination MidiOut)
  disconnected_sources : List (Nat × DisconnectedSource)
  disconnected_destinations : List (Nat × DisconnectedDestination)
deriving DecidableEq, Repr

/-- `Endpoints::new()`. -/
def Endpoints.new (MidiIn MidiOut : Type) : Endpoints MidiIn MidiOut :=
  { connected_sources := []
    connected_destinations := []
    disconnected_sources := []
    disconnected_destinations := [] }

/-- `Endpoints::connected_sources()`: collect the map's values and sort
by name (`sort_unstable_by` on `name.cmp`). -/
def Endpoints.connectedSources {MidiIn MidiOut : Type} (e : Endpoints MidiIn MidiOut) :
    List (ConnectedSource MidiIn) :=
  (e.connected_sources.map Prod.snd).mergeSort (fun s1 s2 => decide (s1.name ≤ s2.name))

/-- `Endpoints::connected_destinations()`: values sorted by name. -/
def Endpoints.connectedDestinations {MidiIn MidiOut : Type} (e : Endpoints MidiIn MidiOut) :
    List (ConnectedDestination MidiOut) :=
  (e.connected_destinations.map Prod.snd).mergeSort (fun d1 d2 => decide (d1.name ≤ d2.name))

/-- `Endpoints::add_source(id, name, source)`: only acts on a vacant
entry; then it drops any stale disconnected record for `id` and inserts
the new connected record. -/
def Endpoints.addSource {MidiIn MidiOut : Type} (e : Endpoints MidiIn MidiOut)
    (id : Nat) (name : String) (source : MidiIn) : Endpoints MidiIn MidiOut :=
  if (lookupKey e.connected_sources id).isSome then
    e
  else
    { e with
      disconnected_sources := eraseKey e.disconnected_sources id
      connected_sources := (id, { id := id, name := name, source := source }) :: e.connected_sources }

/-- `Endpoints::remove_source(source)`: linear scan for the first
connected entry whose handle equals `source`; move it from the connected
map to the disconnected map and return it. -/
def Endpoints.removeSource {MidiIn MidiOut : Type} [DecidableEq MidiIn]
    (e : Endpoints MidiIn MidiOut) (source : MidiIn) :
    Endpoints MidiIn MidiOut × Option (ConnectedSource MidiIn) :=
  match e.connected_sources.find? (fun p => decide (p.2.source = source)) with
  | none => (e, none)
  | some (id, cs) =>
    ({ e with
       connected_sources := eraseKey e.connected_sources id
       disconnected_sources :=
         (cs.id, { id := cs.id, name := cs.name }) :: eraseKey e.disconnected_sources cs.id },
     some cs)

/-- `Endpoints::get_source(source_id)`. -/
def Endpoints.getSource {MidiIn MidiOut : Type} (e : Endpoints MidiIn MidiOut) (id : Nat) :
    Option MidiIn :=
  (lookupKey e.connected_sources id).map (fun cs => cs.source)

/-- `Endpoints::add_destination(id, name, destination)` (mirror of
`add_source`). -/
def Endpoints.addDestination {MidiIn MidiOut : Type} (e : Endpoints MidiIn MidiOut)
    (id : Nat) (name : String) (destination : MidiOut) : Endpoints MidiIn MidiOut :=
  if (lookupKey e.connected_destinations id).isSome then
    e
  else
    { e with
      disconnected_destinations := eraseKey e.disconnected_destinations id
      connected_destinations :=
        (id, { id := id, name := name, destination := destination }) :: e.connected_destinations }

/-- One `add_source`/`remove_source` call, for stating properties of call
sequences against the registry. -/
inductive SourceOp (MidiIn : Type) where
  | add (id : Nat) (name : String) (handle : MidiIn)
  | remove (handle : MidiIn)

/-- Apply one `SourceOp` to a registry (the `remove` return value is
dropped, as a caller ignoring it would). -/
def applyOp {MidiIn MidiOut : Type} [DecidableEq MidiIn]
    (e : Endpoints MidiIn MidiOut) (op : SourceOp MidiIn) : Endpoints MidiIn MidiOut :=
  match op with
  | .add id name handle => e.addSource id name handle
  | .remove handle => (e.removeSource handle).1

/-- Fold a call sequence over the fresh registry. -/
def applyOps {MidiIn : Type} (MidiOut : Type) [DecidableEq MidiIn]
    (ops : List (SourceOp MidiIn)) : Endpoints MidiIn MidiOut :=
  ops.foldl applyOp (Endpoints.new MidiIn MidiOut)

/-- An `(id, name, handle)` triple for one `add_source` call. -/
def AddCall (MidiIn : Type) : Type :=
  Nat × String × MidiIn

/-- Fold a list of `add_source` calls over the fresh registry. -/
def applyAdds {MidiIn : Type} (MidiOut : Type) (adds : List (AddCall MidiIn)) :
    Endpoints MidiIn MidiOut :=
  adds.foldl (fun e t => e.addSource t.1 t.2.1 t.2.2) (Endpoints.new MidiIn MidiOut)

/-- An `(id, name, handle)` triple for one `add_destination` call. -/
def AddDstCall (MidiOut : Type) : Type :=
  Nat × String × MidiOut

/-- Fold a list of `add_destination` calls over the fresh registry. -/
def applyAddDsts (MidiIn : Type) {MidiOut : Type} (adds : List (AddDstCall MidiOut)) :
    Endpoints MidiIn MidiOut :=
  adds.foldl (fun e t => e.addDestination t.1 t.2.1 t.2.2) (Endpoints.new MidiIn MidiOut)

/-- `JackMidiError` from `driver.rs`. -/
inductive JackMidiError where
  | ClientCreate
  | PortCreate
  | InputAlreadyExists (config : InputConfig)
  | InputNotFound (name : String)

/-- The backend surface `create_input`/`set_input_sources` touch
(`jack::Client` operations): port registration (may fail) and physical
connect/disconnect (per-source success). -/
structure Backend where
  registerPort : String → Option Nat
  connectPorts : Nat → Nat → Bool
  disconnectPorts : Nat → Nat → Bool

/-- The control-thread state of `JackMidiDriver`: the endpoints registry
and the name-keyed input map (`JackHost`). -/
structure DriverState where
  endpoints : Endpoints Nat Nat
  inputs : List (String × Input)

/-- `JackMidiDriver::create_input` (`driver.rs:190-250`): reject a
duplicate name before touching anything; otherwise compute the filter map
from the currently connected sources, register the port (`PortCreate` on
failure), physically connect each matched source recording successes as
the connected set, and insert the new `Input` with a fresh decoder. -/
def createInput (b : Backend) (st : DriverState) (config : InputConfig) :
    DriverState × Except JackMidiError String :=
  if (lookupKey st.inputs config.name).isSome then
    (st, .error (.InputAlreadyExists config))
  else
    let filters := st.endpoints.connectedSources.filterMap
      (fun cs => (matchFilter config.sources cs.id cs.name).map (fun f => (cs.id, f)))
    match b.registerPort config.name with
    | none => (st, .error .PortCreate)
    | some port =>
      let connected := (filters.map Prod.fst).filterMap
        (fun sid =>
          (st.endpoints.getSource sid).bind
            (fun src => if b.connectPorts src port then some sid else none))
      let inp : Input :=
        { name := config.name
          sources := config.sources
          connected := connected
          filters := filters
          port := port
          decoder := DecoderState.default }
      ({ st with inputs := (config.name, inp) :: eraseKey st.inputs config.name },
       .ok config.name)

/-- `JackMidiDriver::set_input_sources` (`driver.rs:330-379`): fail with
`InputNotFound` for an unknown name; otherwise rebuild the filter map
from the current topology, connect newly matched sources, disconnect the
no-longer-matched ones (backend effects only), and swap in the new
`sources` and filter map. -/
def setInputSources (b : Backend) (st : DriverState) (name : String)
    (sources : SourceMatches) : DriverState × Except JackMidiError Unit :=
  match lookupKey st.inputs name with
  | none => (st, .error (.InputNotFound name))
  | some input =>
    let connected_sources := st.endpoints.connectedSources.filterMap
      (fun cs => (matchFilter sources cs.id cs.name).map (fun f => (cs.id, f, cs.source)))
    let filters := connected_sources.map (fun t => (t.1, t.2.1))
    let start : List Nat × List Nat := (input.connected, input.connected)
    let folded := connected_sources.foldl
      (fun acc t =>
        if acc.1.contains t.1 then
          (acc.1, acc.2.filter (fun sid => !decide (sid = t.1)))
        else if b.connectPorts t.2.2 input.port then
          (t.1 :: acc.1, acc.2)
        else
          acc)
      start
    -- the leftover `folded.2` ids are physically disconnected
    -- (`client.disconnect_ports`, a backend-only effect, result ignored)
    let input2 : Input :=
      { input with connected := folded.1, sources := sources, filters := filters }
    ({ st with inputs := (name, input2) :: eraseKey st.inputs name }, .ok ())

/-- The key sets of the connected-sources and disconnected-sources maps
are disjoint: no id is in both at once. -/
def sourceMapsDisjoint {MidiIn MidiOut : Type} (e : Endpoints MidiIn MidiOut) : Prop :=
  ∀ id : Nat, (lookupKey e.connected_sources id).isSome = true →
    lookupKey e.disconnected_sources id = none

/-- Auxiliary map invariant (held by every reachable registry, mirroring
`HashMap<SourceId, ConnectedSource>`): the stored record's `id` field
equals its key. -/
def connKeysMatch {MidiIn MidiOut : Type} (e : Endpoints MidiIn MidiOut) : Prop :=
  ∀ p ∈ e.connected_sources, p.2.id = p.1

/-- The map entry one `add_source(id, name, handle)` call creates. -/
def mkSrcEntry {MidiIn : Type} (t : AddCall MidiIn) : Nat × ConnectedSource MidiIn :=
  (t.1, { id := t.1, name := t.2.1, source := t.2.2 })

/-- The map entry one `add_destination(id, name, handle)` call creates. -/
def mkDstEntry {MidiOut : Type} (t : AddDstCall MidiOut) : Nat × ConnectedDestination MidiOut :=
  (t.1, { id := t.1, name := t.2.1, destination := t.2.2 })

/-- Concrete fixture: an input with two connected sources sharing the
input's single decoder, as built by the jack driver. -/
def inputTwoSources : Input :=
  { name := "in1", sources := [], connected := [1, 2], filters := [], port := 0
    decoder := DecoderState.default }

/-- Concrete fixture: a filter rejecting every message type. -/
def filterRejectAll : Filter :=
  { mtype := fun _ => false, group := fun _ => true, channel := fun _ _ => true }

/-- Concrete fixture: a registered input named `jack`. -/
def inputJack : Input :=
  { name := "jack", sources := [], connected := [], filters := [], port := 3
    decoder := DecoderState.default }

/-- Concrete fixture: a backend whose operations all succeed. -/
def backend0 : Backend :=
  { registerPort := fun _ => some 3, connectPorts := fun _ _ => true
    disconnectPorts := fun _ _ => true }

/-- Concrete fixture: a driver state holding only the `jack` input. -/
def driverState0 : DriverState :=
  { endpoints := Endpoints.new Nat Nat, inputs := [("jack", inputJack)] }

/-- Concrete fixture: a registry with one connected source of id 5. -/
def endpoints8 : Endpoints Nat Nat :=
  { connected_sources := [(5, { id := 5, name := "a", source := 10 })]
    connected_destinations := []
    disconnected_sources := []
    disconnected_destinations := [] }

/-- Concrete fixture: add, remove by handle, re-add the same id. -/
def opsW : List (SourceOp Nat) :=
  [.add 1 "a" 10, .remove 10, .add 1 "b" 11]

/-- Concrete fixture: two `add_source` calls in one order... -/
def adds1W : List (AddCall Nat) :=
  [(1, "b", 10), (2, "a", 20)]

/-- ... and the same two calls in the opposite order. -/
def adds2W : List (AddCall Nat) :=
  [(2, "a", 20), (1, "b", 10)]

/-- The packet length `init` selects, spelled out per nibble value. -/
theorem initLen_cases (w : Nat) :
    initLen w =
      (if (w >>> 28) % 16 = 0 ∨ (w >>> 28) % 16 = 1 ∨ (w >>> 28) % 16 = 2 then 1
       else if (w >>> 28) % 16 = 3 ∨ (w >>> 28) % 16 = 4 then 2
       else if (w >>> 28) % 16 = 5 then 4 else 1) := by
  unfold initLen
  have h16 : (w >>> 28) % 16 < 16 := Nat.mod_lt _ (by norm_num)
  set n := (w >>> 28) % 16 with hn
  interval_cases n <;> decide

/-- `init` only ever selects a packet length of 1, 2 or 4 words. -/
theorem initLen_mem (w : Nat) : initLen w = 1 ∨ initLen w = 2 ∨ initLen w = 4 := by
  rw [initLen_cases]
  split
  · exact Or.inl rfl
  · split
    · exact Or.inr (Or.inl rfl)
    · split
      · exact Or.inr (Or.inr rfl)
      · exact Or.inl rfl

/-- A list of length 4 is a literal 4-element list. -/
theorem list_len_four {α : Type} (l : List α) (h : l.length = 4) :
    ∃ a b c e, l = [a, b, c, e] := by
  rcases l with _ | ⟨a, _ | ⟨b, _ | ⟨c, _ | ⟨e, _ | rest⟩⟩⟩⟩
  · simp at h
  · simp at h
  · simp at h
  · simp at h
  · exact ⟨a, b, c, e, rfl⟩
  · simp at h

/-- Claim C2 — from Idle, the first word's high nibble fixes the packet
word count (0, 1, 2 ↦ 1 word; 3, 4 ↦ 2 words; 5 ↦ 4 words; every other
nibble ↦ 1 word): feeding exactly that many words returns the decoder to
Idle with every result before the last `Ok(None)`, while any shorter
prefix yields only `Ok(None)` results and leaves the decoder
Accumulating (0 < index < len). -/
theorem decoder_word_count (dec : DecodeFn) (f : Filter) (d : DecoderState) (w : Nat)
    (hidle : d.index = 0) :
    (initLen w =
      (if (w >>> 28) % 16 = 0 ∨ (w >>> 28) % 16 = 1 ∨ (w >>> 28) % 16 = 2 then 1
       else if (w >>> 28) % 16 = 3 ∨ (w >>> 28) % 16 = 4 then 2
       else if (w >>> 28) % 16 = 5 then 4 else 1)) ∧
    (∀ ws : List Nat, ws.length + 1 = initLen w →
      (feedAll dec d (w :: ws) f).1.index = 0 ∧ (feedAll dec d (w :: ws) f).1.len = 0 ∧
      ∀ r ∈ (feedAll dec d (w :: ws) f).2.dropLast, r = Except.ok none) ∧
    (∀ ws : List Nat, ws.length + 1 < initLen w →
      (∀ r ∈ (feedAll dec d (w :: ws) f).2, r = Except.ok none) ∧
      0 < (feedAll dec d (w :: ws) f).1.index ∧
      (feedAll dec d (w :: ws) f).1.index < (feedAll dec d (w :: ws) f).1.len) := by
  refine ⟨initLen_cases w, ?_, ?_⟩
  · intro ws hlen
    rcases initLen_mem w with hL | hL | hL
    · have hws : ws = [] := by
        rcases ws with _ | ⟨a, rest⟩
        · rfl
        · simp [hL] at hlen
      subst hws
      simp [feedAll, next, hidle, hL, DecoderState.reset]
    · rcases ws with _ | ⟨a, _ | ⟨b, rest⟩⟩ <;> simp [hL] at hlen
      simp [feedAll, next, hidle, hL, DecoderState.reset]
    · rcases ws with _ | ⟨a, _ | ⟨b, _ | ⟨c, _ | ⟨e, rest⟩⟩⟩⟩ <;> simp [hL] at hlen
      simp [feedAll, next, hidle, hL, DecoderState.reset]
  · intro ws hlen
    rcases initLen_mem w with hL | hL | hL
    · omega
    · have hws : ws = [] := by
        rcases ws with _ | ⟨a, rest⟩
        · rfl
        · simp [hL] at hlen
          omega
      subst hws
      simp [feedAll, next, hidle, hL, DecoderState.reset]
    · rcases ws with _ | ⟨a, _ | ⟨b, _ | ⟨c, rest⟩⟩⟩
      · simp [feedAll, next, hidle, hL, DecoderState.reset]
      · simp [feedAll, next, hidle, hL, DecoderState.reset]
      · simp [feedAll, next, hidle, hL, DecoderState.reset]
      · exfalso
        simp [hL] at hlen
        omega

/-- Witness for C2: a 4-word (nibble 5) packet completes after exactly
four words and the decoder returns to Idle. -/
theorem decoder_word_count_witness :
    (feedAll decode2 DecoderState.default [0x50000000, 1, 2, 3] Filter.new).1.index = 0 ∧
    (feedAll decode2 DecoderState.default [0x50000000, 1, 2, 3] Filter.new).1.len = 0 := by
  have h := decoder_word_count decode2 Filter.new DecoderState.default 0x50000000 rfl
  have h2 := h.2.1 [1, 2, 3] (by decide)
  exact ⟨h2.1, h2.2.1⟩

/-- Claim C3 — the word sequence `0x41923c00, 0xabcd0000, 0x43853d00,
0x12340000` fed to a fresh `DecoderProtocol2` with the pass-all filter
yields exactly two messages, on the second and fourth words: a MIDI-2
NoteOn (group 1, channel 2, note 0x3c, velocity 0xabcd, attributes 0)
then a NoteOff (group 3, channel 5, note 0x3d, velocity 0x1234); the
state is back at Idle between the two packets. -/
theorem two_messages_are_emitted :
    (feedAll decode2 DecoderState.default
        [0x41923c00, 0xabcd0000, 0x43853d00, 0x12340000] Filter.new).2 =
      [Except.ok none,
       Except.ok (some
         { group := 1
           mtype := .ChannelVoice
             { channel := 2, message := .NoteOn 0x3c 0xabcd 0 0 } }),
       Except.ok none,
       Except.ok (some
         { group := 3
           mtype := .ChannelVoice
             { channel := 5, message := .NoteOff 0x3d 0x1234 0 0 } })] ∧
    (feedAll decode2 DecoderState.default [0x41923c00, 0xabcd0000] Filter.new).1.index = 0 ∧
    (feedAll decode2 DecoderState.default [0x41923c00, 0xabcd0000] Filter.new).1.len = 0 := by
  exact ⟨rfl, rfl, rfl⟩

/-- Claim C4 — a packet whose first word's (mtype, group) the filter
rejects is still consumed over its full word count: every `next` call
returns `Ok(None)` and after the final word the state is Idle again. -/
theorem filtered_packet_consumed (dec : DecodeFn) (f : Filter) (d : DecoderState) (w : Nat)
    (ws : List Nat) (hidle : d.index = 0) (hump : d.ump.length = 4)
    (hrej : (f.mtype ((w >>> 28) % 16) && f.group ((w >>> 24) % 16)) = false)
    (hcount : ws.length + 1 = initLen w) :
    (∀ r ∈ (feedAll dec d (w :: ws) f).2, r = Except.ok none) ∧
    (feedAll dec d (w :: ws) f).1.index = 0 ∧ (feedAll dec d (w :: ws) f).1.len = 0 := by
  obtain ⟨a0, b0, c0, e0, hsh⟩ := list_len_four d.ump hump
  rcases d with ⟨ump, idx, len⟩
  simp only at hidle hsh
  subst hidle hsh
  rcases initLen_mem w with hL | hL | hL
  · have hws : ws = [] := by
      rcases ws with _ | ⟨a, rest⟩
      · rfl
      · simp [hL] at hcount
    subst hws
    simp [feedAll, next, hL, DecoderState.reset, hrej]
  · rcases ws with _ | ⟨a, _ | ⟨b, rest⟩⟩
    · simp [hL] at hcount
    · simp [feedAll, next, hL, DecoderState.reset, hrej]
    · simp [hL] at hcount
  · rcases ws with _ | ⟨a, _ | ⟨b, _ | ⟨c, _ | ⟨e, rest⟩⟩⟩⟩
    · simp [hL] at hcount
    · simp [hL] at hcount
    · simp [hL] at hcount
    · simp [feedAll, next, hL, DecoderState.reset, hrej]
    · simp [hL] at hcount

/-- Witness for C4: a filter rejecting every mtype consumes the 2-word
packet `0x41923c00, 0xabcd0000` and ends at Idle. -/
theorem filtered_packet_consumed_witness :
    (feedAll decode2 DecoderState.default [0x41923c00, 0xabcd0000] filterRejectAll).1.index = 0 ∧
    (feedAll decode2 DecoderState.default [0x41923c00, 0xabcd0000] filterRejectAll).1.len = 0 := by
  have h := filtered_packet_consumed decode2 filterRejectAll DecoderState.default 0x41923c00
    [0xabcd0000] rfl rfl rfl (by decide)
  exact h.2

/-- Claim C5 — `next` never surfaces the `Reserved` error (it always
returns `Ok`), and a word with an undefined mtype nibble (outside 0–5)
is consumed as a complete 1-word packet that yields no message and
leaves both decoder implementations back at Idle. -/
theorem reserved_never_error (d : DecoderState) (w : Nat) (f : Filter)
    (hidle : d.index = 0) (hump : d.ump.length = 4)
    (hres : 5 < (w >>> 28) % 16) :
    (∀ (dec : DecodeFn) (d2 : DecoderState) (w2 : Nat) (f2 : Filter),
       ∃ r, (next dec d2 w2 f2).2 = Except.ok r) ∧
    ((next decode1 d w f).2 = Except.ok none ∧
      (next decode1 d w f).1.index = 0 ∧ (next decode1 d w f).1.len = 0) ∧
    ((next decode2 d w f).2 = Except.ok none ∧
      (next decode2 d w f).1.index = 0 ∧ (next decode2 d w f).1.len = 0) := by
  refine ⟨?_, ?_, ?_⟩
  · intro dec d2 w2 f2
    unfold next
    dsimp only
    split <;> split <;> exact ⟨_, rfl⟩
  all_goals
    obtain ⟨a0, b0, c0, e0, hsh⟩ := list_len_four d.ump hump
    obtain ⟨k, hk⟩ : ∃ k, (w >>> 28) % 16 = k + 6 := ⟨(w >>> 28) % 16 - 6, by omega⟩
    rcases d with ⟨ump, idx, len⟩
    simp only at hidle hsh
    subst hidle hsh
    have hL : initLen w = 1 := by
      rw [initLen_cases, hk]
      simp
    simp [next, hL, DecoderState.reset, decode1, decode2, hk]

/-- Witness for C5: the reserved nibble 7 word `0x70000000` is silently
dropped and the decoder is Idle again. -/
theorem reserved_never_error_witness :
    (next decode2 DecoderState.default 0x70000000 Filter.new).2 = Except.ok none ∧
    (next decode2 DecoderState.default 0x70000000 Filter.new).1.index = 0 := by
  have h := reserved_never_error DecoderState.default 0x70000000 Filter.new rfl rfl (by decide)
  exact ⟨h.2.2.1, h.2.2.2.1⟩

/-- Claim C1 — contrary to the claim, `JackHost::process` resets the
decoder's index/len at the start of every per-source cycle
(`driver.rs:141`), so the 2-word packet `0x30000000, 0x20903c40` decodes
differently split across two cycles (the second word is then treated as
a fresh 1-word packet and emits a NoteOn) than delivered in one cycle
(no message), while the persistent decoder gives the one-cycle result. -/
theorem process_reset_diverges_across_cycles :
    ((processSourceCycle 7 DecoderState.default [(0, 0x30000000)] Filter.new).1.index = 1 ∧
     (processSourceCycle 7
        (processSourceCycle 7 DecoderState.default [(0, 0x30000000)] Filter.new).1
        [] Filter.new).1.index = 0) ∧
    (processSourceCycle 7 DecoderState.default
        [(0, 0x30000000), (1, 0x20903c40)] Filter.new).2 = [] ∧
    (processSourceCycle 7 DecoderState.default [(0, 0x30000000)] Filter.new).2 = [] ∧
    (processSourceCycle 7
        (processSourceCycle 7 DecoderState.default [(0, 0x30000000)] Filter.new).1
        [(1, 0x20903c40)] Filter.new).2 =
      [{ timestamp := 1, endpoint := 7
         message := { group := 0
                      mtype := .ChannelVoice1 { channel := 0, message := .NoteOn1 0x3c 0x40 } } }] ∧
    (feedEvents 7 (feedEvents 7 DecoderState.default [(0, 0x30000000)] Filter.new).1
        [(1, 0x20903c40)] Filter.new).2 = [] ∧
    ¬((processSourceCycle 7 DecoderState.default [(0, 0x30000000)] Filter.new).2 ++
      (processSourceCycle 7
        (processSourceCycle 7 DecoderState.default [(0, 0x30000000)] Filter.new).1
        [(1, 0x20903c40)] Filter.new).2 =
      (processSourceCycle 7 DecoderState.default
        [(0, 0x30000000), (1, 0x20903c40)] Filter.new).2) := by
  refine ⟨⟨rfl, rfl⟩, rfl, rfl, rfl, rfl, ?_⟩
  decide

/-- Claim C6 — contrary to the claim, the jack `Input` owns a single
decoder shared by all its connected sources (`driver.rs:36`), and
`process` replays the input port's buffer once per source id through it:
on the split 2-word packet scenario the code emits a NoteOn attributed
to both sources in cycle 2, whereas the spec's per-(input, source)
persistent decoders emit nothing. -/
theorem shared_decoder_diverges :
    ((processInput (processInput inputTwoSources [(0, 0x30000000)]).1 [(0, 0x20903c40)]).2 =
      [{ timestamp := 0, endpoint := 1
         message := { group := 0
                      mtype := .ChannelVoice1 { channel := 0, message := .NoteOn1 0x3c 0x40 } } },
       { timestamp := 0, endpoint := 2
         message := { group := 0
                      mtype := .ChannelVoice1 { channel := 0, message := .NoteOn1 0x3c 0x40 } } }]) ∧
    ((processInputSpec
        (processInputSpec [] [1, 2] [] [(1, [(0, 0x30000000)])]).1
        [1, 2] [] [(1, [(0, 0x20903c40)])]).2 = []) ∧
    ¬((processInput (processInput inputTwoSources [(0, 0x30000000)]).1 [(0, 0x20903c40)]).2 =
      (processInputSpec
        (processInputSpec [] [1, 2] [] [(1, [(0, 0x30000000)])]).1
        [1, 2] [] [(1, [(0, 0x20903c40)])]).2) := by
  refine ⟨rfl, rfl, ?_⟩
  decide

/-- Looking up the removed key in an erased map finds nothing. -/
theorem lookupKey_eraseKey_self {κ α : Type} [DecidableEq κ] (l : List (κ × α)) (k : κ) :
    lookupKey (eraseKey l k) k = none := by
  induction l with
  | nil => rfl
  | cons a t ih =>
    by_cases h : a.1 = k
    · rw [show eraseKey (a :: t) k = eraseKey t k from by
        simp [eraseKey, List.filter_cons, h]]
      exact ih
    · simp only [lookupKey, eraseKey, List.filter_cons, h] at ih ⊢
      simp [List.find?_cons, h, ih]

/-- Erasing one key leaves every other key's lookup unchanged. -/
theorem lookupKey_eraseKey_ne {κ α : Type} [DecidableEq κ] (l : List (κ × α)) (k k2 : κ)
    (h : ¬k2 = k) : lookupKey (eraseKey l k) k2 = lookupKey l k2 := by
  induction l with
  | nil => rfl
  | cons a t ih =>
    by_cases ha : a.1 = k
    · have hak2 : ¬a.1 = k2 := by
        rw [ha]
        exact fun hh => h hh.symm
      simp only [lookupKey, eraseKey, List.filter_cons, ha] at ih ⊢
      simpa [List.find?_cons, hak2] using ih
    · by_cases hk2 : a.1 = k2
      · rw [show eraseKey (a :: t) k = a :: eraseKey t k from by
          simp [eraseKey, List.filter_cons, ha]]
        simp [lookupKey, List.find?_cons, hk2]
      · simp only [lookupKey, eraseKey, List.filter_cons, ha] at ih ⊢
        simpa [List.find?_cons, hk2] using ih

/-- Claim C8 — `Endpoints::add_source` is a no-op when the id is already
connected: the registry is unchanged, keeping the first entry's name and
handle. -/
theorem addSource_idem {MidiIn MidiOut : Type} (e : Endpoints MidiIn MidiOut)
    (id : Nat) (name2 : String) (handle2 : MidiIn)
    (hpres : (lookupKey e.connected_sources id).isSome = true) :
    e.addSource id name2 handle2 = e := by
  unfold Endpoints.addSource
  simp [hpres]

/-- Witness for C8: re-adding id 5 with a different name and handle
leaves the registry exactly as it was. -/
theorem addSource_idem_witness :
    endpoints8.addSource 5 "b" 99 = endpoints8 :=
  addSource_idem endpoints8 5 "b" 99 rfl

/-- One `add_source`/`remove_source` call preserves both the
connected/disconnected disjointness and the key/field agreement. -/
theorem applyOp_keeps {MidiIn MidiOut : Type} [DecidableEq MidiIn]
    (e : Endpoints MidiIn MidiOut) (op : SourceOp MidiIn)
    (h1 : sourceMapsDisjoint e) (h2 : connKeysMatch e) :
    sourceMapsDisjoint (applyOp e op) ∧ connKeysMatch (applyOp e op) := by
  rcases op with ⟨id, name, handle⟩ | handle
  · unfold applyOp Endpoints.addSource
    by_cases hocc : (lookupKey e.connected_sources id).isSome = true
    · simpa [hocc] using ⟨h1, h2⟩
    · simp only [hocc, if_neg, Bool.not_eq_true] at *
      constructor
      · intro id2 hmem
        simp only [lookupKey, List.find?_cons] at hmem
        by_cases hid : id2 = id
        · subst hid
          exact lookupKey_eraseKey_self _ _
        · rw [lookupKey_eraseKey_ne _ _ _ hid]
          apply h1
          simp only [lookupKey, List.find?_cons] at hmem ⊢
          by_cases hd : id = id2
          · exact absurd hd.symm hid
          · simpa [hd] using hmem
      · intro p hp
        rcases List.mem_cons.mp hp with h | h
        · rw [h]
        · exact h2 p h
  · unfold applyOp Endpoints.removeSource
    rcases hfind : e.connected_sources.find? (fun p => decide (p.2.source = handle)) with
      _ | ⟨id0, cs⟩
    · simpa [hfind] using ⟨h1, h2⟩
    · have hmem := List.mem_of_find?_eq_some hfind
      have hcsid : cs.id = id0 := h2 _ hmem
      simp only [hfind]
      constructor
      · intro id2 hid2
        by_cases hd : id2 = id0
        · subst hd
          rw [lookupKey_eraseKey_self] at hid2
          simp at hid2
        · rw [lookupKey_eraseKey_ne _ _ _ hd] at hid2
          have hrest := h1 id2 hid2
          have hne : ¬(cs.id = id2) := by
            rw [hcsid]
            exact fun hh => hd hh.symm
          show lookupKey ((cs.id, ({ id := cs.id, name := cs.name } : DisconnectedSource)) ::
            eraseKey e.disconnected_sources cs.id) id2 = none
          rw [show lookupKey ((cs.id, ({ id := cs.id, name := cs.name } : DisconnectedSource)) ::
              eraseKey e.disconnected_sources cs.id) id2 =
              lookupKey (eraseKey e.disconnected_sources cs.id) id2 from by
            simp [lookupKey, List.find?_cons, hne]]
          rw [lookupKey_eraseKey_ne _ _ _ (fun hh => hd (hh.trans hcsid))]
          exact hrest
      · intro p hp
        exact h2 p (List.mem_of_mem_filter hp)

/-- Claim C10 — starting from a fresh registry, every sequence of
`add_source`/`remove_source` calls keeps the connected and disconnected
source maps key-disjoint; `add_source` of a new id drops any stale
disconnected record; `remove_source` moves the matched entry from
connected to disconnected; `remove_source` with an unmatched handle
returns `None` and changes nothing. -/
theorem registry_disjoint {MidiIn MidiOut : Type} [DecidableEq MidiIn] :
    (∀ ops : List (SourceOp MidiIn),
      sourceMapsDisjoint (applyOps MidiOut ops)) ∧
    (∀ (e : Endpoints MidiIn MidiOut) (id : Nat) (name : String) (handle : MidiIn),
      lookupKey e.connected_sources id = none →
      lookupKey (e.addSource id name handle).disconnected_sources id = none) ∧
    (∀ (e : Endpoints MidiIn MidiOut) (handle : MidiIn) (e2 : Endpoints MidiIn MidiOut)
        (cs : ConnectedSource MidiIn),
      connKeysMatch e → e.removeSource handle = (e2, some cs) →
      lookupKey e2.disconnected_sources cs.id = some { id := cs.id, name := cs.name } ∧
      lookupKey e2.connected_sources cs.id = none) ∧
    (∀ (e : Endpoints MidiIn MidiOut) (handle : MidiIn),
      e.connected_sources.find? (fun p => decide (p.2.source = handle)) = none →
      e.removeSource handle = (e, none)) := by
  refine ⟨?_, ?_, ?_, ?_⟩
  · intro ops
    have main : ∀ (e : Endpoints MidiIn MidiOut), sourceMapsDisjoint e → connKeysMatch e →
        sourceMapsDisjoint (ops.foldl applyOp e) ∧ connKeysMatch (ops.foldl applyOp e) := by
      induction ops with
      | nil => exact fun e he1 he2 => ⟨he1, he2⟩
      | cons op rest ih =>
        intro e he1 he2
        have h := applyOp_keeps e op he1 he2
        exact ih (applyOp e op) h.1 h.2
    exact (main (Endpoints.new MidiIn MidiOut)
      (by intro id h; simp [Endpoints.new, lookupKey] at h)
      (by intro p hp; simp [Endpoints.new] at hp)).1
  · intro e id name handle h
    unfold Endpoints.addSource
    simp only [h, Option.isSome_none, Bool.false_eq_true, if_neg]
    simpa using lookupKey_eraseKey_self e.disconnected_sources id
  · intro e handle e2 cs hkeys hrem
    unfold Endpoints.removeSource at hrem
    rcases hfind : e.connected_sources.find? (fun p => decide (p.2.source = handle)) with
      _ | ⟨id0, cs0⟩
    · rw [hfind] at hrem
      simp at hrem
    · rw [hfind] at hrem
      have hcs : cs0 = cs := by
        have := congrArg Prod.snd hrem
        simpa using this
      have he2 : e2 = { e with
          connected_sources := eraseKey e.connected_sources id0
          disconnected_sources :=
            (cs0.id, { id := cs0.id, name := cs0.name }) ::
              eraseKey e.disconnected_sources cs0.id } := by
        have := congrArg Prod.fst hrem
        simpa using this.symm
      have hid0 : cs0.id = id0 := hkeys _ (List.mem_of_find?_eq_some hfind)
      rw [← hcs, he2]
      constructor
      · simp [lookupKey, List.find?_cons]
      · rw [show (({ e with
            connected_sources := eraseKey e.connected_sources id0
            disconnected_sources :=
              (cs0.id, { id := cs0.id, name := cs0.name }) ::
                eraseKey e.disconnected_sources cs0.id } :
            Endpoints MidiIn MidiOut)).connected_sources =
            eraseKey e.connected_sources id0 from rfl, hid0]
        exact lookupKey_eraseKey_self _ _
  · intro e handle h
    unfold Endpoints.removeSource
    simp [h]

/-- Witness for C10: after adding id 1, removing it by handle and
re-adding it, id 1 is connected and absent from the disconnected map. -/
theorem registry_disjoint_witness :
    lookupKey (applyOps Nat opsW).disconnected_sources 1 = none :=
  (@registry_disjoint Nat Nat _).1 opsW 1 (by decide)

/-- A merge sort by a string key is pairwise-sorted on that key. -/
theorem pairwise_mergeSort_key {α : Type} (key : α → String) (l : List α) :
    (l.mergeSort (fun a b => decide (key a ≤ key b))).Pairwise
      (fun a b => key a ≤ key b) := by
  have h := @List.sorted_mergeSort α (fun a b => decide (key a ≤ key b))
    (fun a b c hab hbc => by
      simp only [decide_eq_true_eq] at hab hbc ⊢
      exact le_trans hab hbc)
    (fun a b => by
      simp only [Bool.or_eq_true, decide_eq_true_eq]
      exact le_total (key a) (key b))
    l
  exact h.imp (fun hab => by simpa using hab)

/-- Two permuted lists that are both sorted by a key taking no value
twice are equal. -/
theorem sorted_key_nodup_unique {α : Type} (key : α → String) :
    ∀ (l1 l2 : List α), l1.Perm l2 → l1.Pairwise (fun a b => key a ≤ key b) →
      l2.Pairwise (fun a b => key a ≤ key b) → (l1.map key).Nodup → l1 = l2 := by
  intro l1
  induction l1 with
  | nil =>
    intro l2 hp _ _ _
    exact hp.symm.eq_nil.symm
  | cons a t1 ih =>
    intro l2 hp hs1 hs2 hnd
    have ha : a ∈ l2 := hp.mem_iff.mp (List.mem_cons_self a t1)
    rcases l2 with _ | ⟨b, t2⟩
    · simp at ha
    have hab : a = b := by
      by_contra hne
      have hat2 : a ∈ t2 := by
        rcases List.mem_cons.mp ha with h | h
        · exact absurd h hne
        · exact h
      have hb1 : b ∈ a :: t1 := hp.symm.mem_iff.mp (List.mem_cons_self b t2)
      have hbt1 : b ∈ t1 := by
        rcases List.mem_cons.mp hb1 with h | h
        · exact absurd h.symm hne
        · exact h
      have hle1 : key a ≤ key b := (List.pairwise_cons.mp hs1).1 b hbt1
      have hle2 : key b ≤ key a := (List.pairwise_cons.mp hs2).1 a hat2
      have heq : key b = key a := le_antisymm hle2 hle1
      have hmem : key a ∈ t1.map key := heq ▸ List.mem_map_of_mem key hbt1
      rw [List.map_cons, List.nodup_cons] at hnd
      exact hnd.1 hmem
    subst hab
    have ht : t1.Perm t2 := hp.cons_inv
    rw [ih t2 ht (List.pairwise_cons.mp hs1).2 (List.pairwise_cons.mp hs2).2
      (by rw [List.map_cons, List.nodup_cons] at hnd; exact hnd.2)]

/-- Sorting by a duplicate-free key is insensitive to the input order. -/
theorem mergeSort_key_eq_of_perm {α : Type} (key : α → String) (l1 l2 : List α)
    (hp : l1.Perm l2) (hnd : (l1.map key).Nodup) :
    l1.mergeSort (fun a b => decide (key a ≤ key b)) =
      l2.mergeSort (fun a b => decide (key a ≤ key b)) := by
  apply sorted_key_nodup_unique key
  · exact (List.mergeSort_perm l1 _).trans (hp.trans (List.mergeSort_perm l2 _).symm)
  · exact pairwise_mergeSort_key key l1
  · exact pairwise_mergeSort_key key l2
  · exact ((List.mergeSort_perm l1 _).map key).nodup_iff.mpr hnd

/-- Folding `add_source` calls with fresh ids over a registry prepends
exactly their entries to the connected-sources map, up to order. -/
theorem foldl_addSource_entries {MidiIn MidiOut : Type} :
    ∀ (adds : List (AddCall MidiIn)) (e : Endpoints MidiIn MidiOut),
      (adds.map (fun t => t.1)).Nodup →
      (∀ t ∈ adds, lookupKey e.connected_sources t.1 = none) →
      (adds.foldl (fun e2 t => e2.addSource t.1 t.2.1 t.2.2) e).connected_sources.Perm
        (adds.map mkSrcEntry ++ e.connected_sources) := by
  intro adds
  induction adds with
  | nil =>
    intro e _ _
    simp
  | cons t rest ih =>
    intro e hnd hdis
    rw [List.map_cons, List.nodup_cons] at hnd
    have hvac : lookupKey e.connected_sources t.1 = none := hdis t (List.mem_cons_self t rest)
    have hstep : e.addSource t.1 t.2.1 t.2.2 =
        { e with
          disconnected_sources := eraseKey e.disconnected_sources t.1
          connected_sources := mkSrcEntry t :: e.connected_sources } := by
      unfold Endpoints.addSource
      simp [hvac, mkSrcEntry]
    have hdis2 : ∀ s ∈ rest, lookupKey
        ({ e with
           disconnected_sources := eraseKey e.disconnected_sources t.1
           connected_sources := mkSrcEntry t :: e.connected_sources } :
          Endpoints MidiIn MidiOut).connected_sources s.1 = none := by
      intro s hs
      have hne : ¬(t.1 = s.1) := by
        intro hh
        exact hnd.1 (hh ▸ List.mem_map_of_mem (fun u => u.1) hs)
      simp only [lookupKey, List.find?_cons, mkSrcEntry]
      simp only [hne, decide_eq_false, Bool.false_eq_true]
      exact hdis s (List.mem_cons_of_mem t hs)
    have hrec := ih ({ e with
        disconnected_sources := eraseKey e.disconnected_sources t.1
        connected_sources := mkSrcEntry t :: e.connected_sources }) hnd.2 hdis2
    have hres := hrec.trans List.perm_middle
    rw [List.foldl_cons, hstep]
    simpa using hres

/-- Destination twin of `foldl_addSource_entries`. -/
theorem foldl_addDestination_entries {MidiIn MidiOut : Type} :
    ∀ (adds : List (AddDstCall MidiOut)) (e : Endpoints MidiIn MidiOut),
      (adds.map (fun t => t.1)).Nodup →
      (∀ t ∈ adds, lookupKey e.connected_destinations t.1 = none) →
      (adds.foldl (fun e2 t => e2.addDestination t.1 t.2.1 t.2.2) e).connected_destinations.Perm
        (adds.map mkDstEntry ++ e.connected_destinations) := by
  intro adds
  induction adds with
  | nil =>
    intro e _ _
    simp
  | cons t rest ih =>
    intro e hnd hdis
    rw [List.map_cons, List.nodup_cons] at hnd
    have hvac : lookupKey e.connected_destinations t.1 = none :=
      hdis t (List.mem_cons_self t rest)
    have hstep : e.addDestination t.1 t.2.1 t.2.2 =
        { e with
          disconnected_destinations := eraseKey e.disconnected_destinations t.1
          connected_destinations := mkDstEntry t :: e.connected_destinations } := by
      unfold Endpoints.addDestination
      simp [hvac, mkDstEntry]
    have hdis2 : ∀ s ∈ rest, lookupKey
        ({ e with
           disconnected_destinations := eraseKey e.disconnected_destinations t.1
           connected_destinations := mkDstEntry t :: e.connected_destinations } :
          Endpoints MidiIn MidiOut).connected_destinations s.1 = none := by
      intro s hs
      have hne : ¬(t.1 = s.1) := by
        intro hh
        exact hnd.1 (hh ▸ List.mem_map_of_mem (fun u => u.1) hs)
      simp only [lookupKey, List.find?_cons, mkDstEntry]
      simp only [hne, decide_eq_false, Bool.false_eq_true]
      exact hdis s (List.mem_cons_of_mem t hs)
    have hrec := ih ({ e with
        disconnected_destinations := eraseKey e.disconnected_destinations t.1
        connected_destinations := mkDstEntry t :: e.connected_destinations }) hnd.2 hdis2
    have hres := hrec.trans List.perm_middle
    rw [List.foldl_cons, hstep]
    simpa using hres

/-- Claim C9 — `connected_sources()` / `connected_destinations()` return
the full set of connected entries sorted ascending by name, and (for
call sequences with distinct ids and names) the listing is independent
of the order in which the `add_source` / `add_destination` calls
inserted them. -/
theorem connected_listings_sorted {MidiIn MidiOut : Type} :
    (∀ e : Endpoints MidiIn MidiOut,
      e.connectedSources.Pairwise (fun s1 s2 => s1.name ≤ s2.name) ∧
      e.connectedSources.Perm (e.connected_sources.map Prod.snd) ∧
      e.connectedDestinations.Pairwise (fun d1 d2 => d1.name ≤ d2.name) ∧
      e.connectedDestinations.Perm (e.connected_destinations.map Prod.snd)) ∧
    (∀ adds1 adds2 : List (AddCall MidiIn), adds1.Perm adds2 →
      (adds1.map (fun t => t.1)).Nodup → (adds1.map (fun t => t.2.1)).Nodup →
      (applyAdds MidiOut adds1).connectedSources =
        (applyAdds MidiOut adds2).connectedSources) ∧
    (∀ adds1 adds2 : List (AddDstCall MidiOut), adds1.Perm adds2 →
      (adds1.map (fun t => t.1)).Nodup → (adds1.map (fun t => t.2.1)).Nodup →
      (applyAddDsts MidiIn adds1).connectedDestinations =
        (applyAddDsts MidiIn adds2).connectedDestinations) := by
  refine ⟨?_, ?_, ?_⟩
  · intro e
    exact ⟨pairwise_mergeSort_key (fun s : ConnectedSource MidiIn => s.name) _,
      List.mergeSort_perm _ _,
      pairwise_mergeSort_key (fun d : ConnectedDestination MidiOut => d.name) _,
      List.mergeSort_perm _ _⟩
  · intro adds1 adds2 hp hids hnames
    have hids2 : (adds2.map (fun t => t.1)).Nodup := ((hp.map _).nodup_iff).mp hids
    have h1 := foldl_addSource_entries adds1
      (Endpoints.new MidiIn MidiOut) hids (fun t _ => rfl)
    have h2 := foldl_addSource_entries adds2
      (Endpoints.new MidiIn MidiOut) hids2 (fun t _ => rfl)
    have hperm : ((applyAdds MidiOut adds1).connected_sources.map Prod.snd).Perm
        ((applyAdds MidiOut adds2).connected_sources.map Prod.snd) := by
      refine (h1.map Prod.snd).trans (.trans ?_ (h2.map Prod.snd).symm)
      simpa [Endpoints.new] using (hp.map mkSrcEntry).map Prod.snd
    have hnodup : (((applyAdds MidiOut adds1).connected_sources.map Prod.snd).map
        (fun s => s.name)).Nodup := by
      refine (((h1.map Prod.snd).map (fun s => s.name)).nodup_iff).mpr ?_
      simpa [Endpoints.new, mkSrcEntry, Function.comp] using hnames
    exact mergeSort_key_eq_of_perm (fun s => s.name) _ _ hperm hnodup
  · intro adds1 adds2 hp hids hnames
    have hids2 : (adds2.map (fun t => t.1)).Nodup := ((hp.map _).nodup_iff).mp hids
    have h1 := foldl_addDestination_entries adds1
      (Endpoints.new MidiIn MidiOut) hids (fun t _ => rfl)
    have h2 := foldl_addDestination_entries adds2
      (Endpoints.new MidiIn MidiOut) hids2 (fun t _ => rfl)
    have hperm : ((applyAddDsts MidiIn adds1).connected_destinations.map
        Prod.snd).Perm
        ((applyAddDsts MidiIn adds2).connected_destinations.map Prod.snd) := by
      refine (h1.map Prod.snd).trans (.trans ?_ (h2.map Prod.snd).symm)
      simpa [Endpoints.new] using (hp.map mkDstEntry).map Prod.snd
    have hnodup : (((applyAddDsts MidiIn adds1).connected_destinations.map
        Prod.snd).map (fun d => d.name)).Nodup := by
      refine (((h1.map Prod.snd).map (fun d => d.name)).nodup_iff).mpr ?_
      simpa [Endpoints.new, mkDstEntry, Function.comp] using hnames
    exact mergeSort_key_eq_of_perm (fun d => d.name) _ _ hperm hnodup

/-- Witness for C9: two `add_source` calls applied in either order give
the same sorted listing. -/
theorem connected_listings_sorted_witness :
    (applyAdds Nat adds1W).connectedSources =
      (applyAdds Nat adds2W).connectedSources :=
  (@connected_listings_sorted Nat Nat).2.1 adds1W adds2W
    (List.Perm.swap _ _ _) (by decide) (by decide)

/-- Claim C7 — `create_input` with an already-used name returns
`InputAlreadyExists` and leaves the driver state untouched;
`set_input_sources` with an unregistered name returns `InputNotFound`
and leaves the driver state untouched. -/
theorem input_name_errors (b : Backend) (st : DriverState) (config : InputConfig)
    (name : String) (sources : SourceMatches) :
    ((lookupKey st.inputs config.name).isSome = true →
      createInput b st config = (st, Except.error (.InputAlreadyExists config))) ∧
    (lookupKey st.inputs name = none →
      setInputSources b st name sources = (st, Except.error (.InputNotFound name))) := by
  constructor
  · intro h
    unfold createInput
    simp [h]
  · intro h
    unfold setInputSources
    rw [h]

/-- Witness for C7: duplicate `jack` input rejected with the state
returned unchanged; unknown input `other` reported as not found. -/
theorem input_name_errors_witness :
    createInput backend0 driverState0 { name := "jack", sources := [] } =
      (driverState0, Except.error (.InputAlreadyExists { name := "jack", sources := [] })) ∧
    setInputSources backend0 driverState0 "other" [] =
      (driverState0, Except.error (.InputNotFound "other")) :=
  ⟨(input_name_errors backend0 driverState0 { name := "jack", sources := [] } "other" []).1 rfl,
   (input_name_errors backend0 driverState0 { name := "jack", sources := [] } "other" []).2 rfl⟩

end KiroMidi
